import Mathlib

/-!
Verification of the log-output routing and rotation subsystem
(`service/telemetry/telemetry.go`, `config/configrotate/configrotate.go`).

Go strings are modelled as lists of characters (`GoStr`).  All inputs the
theorems range over are ASCII, where one Go byte corresponds to one
character, so byte-level operations of the Go standard library
(`net/url` escaping and parsing, `strings` helpers) are modelled
character by character.  The fragment of `net/url` that the code under
verification exercises (`url.Parse`, `url.QueryEscape`, `URL.Query`,
`URL.Hostname`, `URL.Port`, `URL.String`) is embedded faithfully,
following the Go standard library implementation.
-/

/-- Go strings, as lists of characters (ASCII ↔ one byte per char). -/
abbrev GoStr := List Char

/-- Convert a Lean string literal to a `GoStr`. -/
def gs (s : String) : GoStr := s.toList

/-! ### Character classes (Go byte predicates) -/

def isUpperAlpha (c : Char) : Bool := 65 ≤ c.toNat && c.toNat ≤ 90

def isLowerAlpha (c : Char) : Bool := 97 ≤ c.toNat && c.toNat ≤ 122

def isAlphaChar (c : Char) : Bool := isLowerAlpha c || isUpperAlpha c

def isDigitChar (c : Char) : Bool := 48 ≤ c.toNat && c.toNat ≤ 57

def isAlphaNumChar (c : Char) : Bool := isAlphaChar c || isDigitChar c

/-- Model of `ishex` from net/url. -/
def isHexChar (c : Char) : Bool :=
  isDigitChar c || (97 ≤ c.toNat && c.toNat ≤ 102) || (65 ≤ c.toNat && c.toNat ≤ 70)

/-- Model of `unhex` from net/url. -/
def unhexVal (c : Char) : Nat :=
  if isDigitChar c then c.toNat - 48
  else if 97 ≤ c.toNat && c.toNat ≤ 102 then c.toNat - 87
  else if 65 ≤ c.toNat && c.toNat ≤ 70 then c.toNat - 55
  else 0

/-- Model of `upperhex[n]` from net/url ("0123456789ABCDEF"). -/
def hexUpperDigit (n : Nat) : Char := Char.ofNat (if n < 10 then 48 + n else 55 + n)

/-- Control byte test of `stringContainsCTLByte` (b < ' ' || b == 0x7f). -/
def isCTLChar (c : Char) : Bool := c.toNat < 32 || c.toNat == 127

/-! ### Go `strings` helpers on `GoStr` -/

/-- Model of `strings.Cut(s, sep)` for a one-byte separator:
returns (before, after, found). -/
def cutStr : GoStr → Char → GoStr × GoStr × Bool
  | [], _ => ([], [], false)
  | c :: cs, sep =>
    if c = sep then ([], cs, true)
    else
      let r := cutStr cs sep
      (c :: r.1, r.2.1, r.2.2)

/-- Model of `strings.HasPrefix(s, pat)` (argument order: subject first). -/
def startsWithStr : GoStr → GoStr → Bool
  | _, [] => true
  | [], _ :: _ => false
  | c :: cs, d :: ds => if c = d then startsWithStr cs ds else false

/-- Model of `strings.HasSuffix(s, pat)`. -/
def endsWithStr (s pat : GoStr) : Bool := startsWithStr s.reverse pat.reverse

/-- Model of `strings.Contains(s, string(c))` for a single byte. -/
def containsChar : GoStr → Char → Bool
  | [], _ => false
  | c :: cs, d => if c = d then true else containsChar cs d

/-- Model of `strings.IndexByte(s, c)`. -/
def idxOf? : GoStr → Char → Option Nat
  | [], _ => none
  | c :: cs, d => if c = d then some 0 else (idxOf? cs d).map (· + 1)

/-- Model of `strings.LastIndexByte(s, c)`. -/
def lastIdxOf? (s : GoStr) (c : Char) : Option Nat :=
  (idxOf? s.reverse c).map (fun i => s.length - 1 - i)

/-- Model of `strings.Index(s, pat)` (first index of a substring). -/
def idxOfSub? (pat : GoStr) : GoStr → Option Nat
  | [] => if startsWithStr [] pat then some 0 else none
  | c :: cs =>
    if startsWithStr (c :: cs) pat then some 0
    else (idxOfSub? pat cs).map (· + 1)

/-- Model of `strings.Contains(s, pat)`. -/
def containsSub (s pat : GoStr) : Bool := (idxOfSub? pat s).isSome

/-- ASCII `strings.ToLower`, per character. -/
def toLowerChar (c : Char) : Char :=
  if 65 ≤ c.toNat && c.toNat ≤ 90 then Char.ofNat (c.toNat + 32) else c

/-- ASCII `strings.ToLower`. -/
def toLowerStr (s : GoStr) : GoStr := s.map toLowerChar

/-- Model of `stringContainsCTLByte` from net/url. -/
def containsCTL (s : GoStr) : Bool := s.any isCTLChar

/-! ### net/url escaping -/

/-- The escaping modes of net/url. -/
inductive EncMode
  | path
  | pathSegment
  | host
  | zone
  | userPassword
  | queryComponent
  | fragmentPart
deriving DecidableEq, BEq

/-- The RFC 3986 reserved characters handled by net/url `shouldEscape`. -/
def isReservedChar (c : Char) : Bool :=
  c = '$' || c = '&' || c = '+' || c = ',' || c = '/' ||
  c = ':' || c = ';' || c = '=' || c = '?' || c = '@'

/-- The characters net/url leaves unescaped in host/zone mode. -/
def hostSafeChar (c : Char) : Bool :=
  c = '!' || c = '$' || c = '&' || c = '\'' || c = '(' || c = ')' ||
  c = '*' || c = '+' || c = ',' || c = ';' || c = '=' || c = ':' ||
  c = '[' || c = ']' || c = '<' || c = '>' || c = '"'

/-- Model of `shouldEscape` from net/url. -/
def shouldEscape (c : Char) (mode : EncMode) : Bool :=
  if isAlphaNumChar c then false
  else if (mode = EncMode.host || mode = EncMode.zone) && hostSafeChar c then false
  else if c = '-' || c = '_' || c = '.' || c = '~' then false
  else if isReservedChar c then
    match mode with
    | .path => c = '?'
    | .pathSegment => c = '/' || c = ';' || c = ',' || c = '?'
    | .userPassword => c = '@' || c = '/' || c = '?' || c = ':'
    | .queryComponent => true
    | .fragmentPart => false
    | .host => true
    | .zone => true
  else if mode = EncMode.fragmentPart && (c = '!' || c = '(' || c = ')' || c = '*') then false
  else true

/-- One character of net/url `escape`. -/
def escapeChar (c : Char) (mode : EncMode) : GoStr :=
  if shouldEscape c mode then
    if c = ' ' && mode = EncMode.queryComponent then ['+']
    else ['%', hexUpperDigit (c.toNat / 16), hexUpperDigit (c.toNat % 16)]
  else [c]

/-- Model of `escape` from net/url. -/
def escapeMode (s : GoStr) (mode : EncMode) : GoStr := (s.map (escapeChar · mode)).flatten

/-- Model of `url.QueryEscape`. -/
def queryEscape (s : GoStr) : GoStr := escapeMode s EncMode.queryComponent

/-- Errors raised inside net/url parsing. -/
inductive URLError
  | ctlByte
  | missingScheme
  | colonSegment
  | missingBracket
  | invalidPort
  | hostEsc
  | invalidHostChar
  | escapeErr
  | invalidUserinfo
deriving DecidableEq

deriving instance DecidableEq for Except

/-- Model of `unescape` from net/url (single pass, same result and error cases). -/
def unescapeMode (mode : EncMode) : GoStr → Except URLError GoStr
  | [] => .ok []
  | c :: rest =>
    if c = '%' then
      match rest with
      | a :: b :: rest2 =>
        if isHexChar a && isHexChar b then
          if mode = EncMode.host && unhexVal a < 8 && !(a = '2' && b = '5') then
            .error .hostEsc
          else if mode = EncMode.zone && !(a = '2' && b = '5') &&
                  !(unhexVal a * 16 + unhexVal b = 32) &&
                  shouldEscape (Char.ofNat (unhexVal a * 16 + unhexVal b)) EncMode.host then
            .error .hostEsc
          else
            match unescapeMode mode rest2 with
            | .error e => .error e
            | .ok t => .ok (Char.ofNat (unhexVal a * 16 + unhexVal b) :: t)
        else .error .escapeErr
      | _ => .error .escapeErr
    else if c = '+' then
      match unescapeMode mode rest with
      | .error e => .error e
      | .ok t => .ok ((if mode = EncMode.queryComponent then ' ' else '+') :: t)
    else
      if (mode = EncMode.host || mode = EncMode.zone) && c.toNat < 128 && shouldEscape c mode then
        .error .invalidHostChar
      else
        match unescapeMode mode rest with
        | .error e => .error e
        | .ok t => .ok (c :: t)

/-- Model of `url.QueryUnescape`. -/
def queryUnescape (s : GoStr) : Except URLError GoStr := unescapeMode EncMode.queryComponent s

/-! ### net/url: the URL structure and `url.Parse` -/

/-- Model of `url.Userinfo` (username, and password when set). -/
structure Userinfo where
  username : GoStr
  password : Option GoStr
deriving DecidableEq

/-- Model of `url.URL`.  The field `opq` models `Opaque`. -/
structure URL where
  scheme : GoStr := []
  opq : GoStr := []
  user : Option Userinfo := none
  host : GoStr := []
  path : GoStr := []
  rawPath : GoStr := []
  omitHost : Bool := false
  forceQuery : Bool := false
  rawQuery : GoStr := []
  fragment : GoStr := []
  rawFragment : GoStr := []
deriving DecidableEq

/-- Scheme scanner of `getScheme`: `acc` is the already-scanned portion
`rawURL[:i]`.  `.ok none` means "no scheme in this URL". -/
def getSchemeCore (acc : GoStr) : GoStr → Except URLError (Option (GoStr × GoStr))
  | [] => .ok none
  | c :: cs =>
    if isAlphaChar c then getSchemeCore (acc ++ [c]) cs
    else if isDigitChar c || c = '+' || c = '-' || c = '.' then
      if acc = [] then .ok none else getSchemeCore (acc ++ [c]) cs
    else if c = ':' then
      if acc = [] then .error .missingScheme else .ok (some (acc, cs))
    else .ok none

/-- Model of `getScheme` from net/url. -/
def getScheme (rawURL : GoStr) : Except URLError (GoStr × GoStr) :=
  match getSchemeCore [] rawURL with
  | .error e => .error e
  | .ok none => .ok ([], rawURL)
  | .ok (some r) => .ok r

/-- Model of `validOptionalPort` from net/url. -/
def validOptionalPort : GoStr → Bool
  | [] => true
  | c :: rest => if c = ':' then rest.all isDigitChar else false

/-- Allowed userinfo characters (`validUserinfo`). -/
def userinfoChar (c : Char) : Bool :=
  isAlphaChar c || isDigitChar c ||
  c = '-' || c = '.' || c = '_' || c = ':' || c = '~' || c = '!' || c = '$' ||
  c = '&' || c = '\'' || c = '(' || c = ')' || c = '*' || c = '+' || c = ',' ||
  c = ';' || c = '=' || c = '%' || c = '@'

/-- Model of `validUserinfo` from net/url. -/
def validUserinfo (s : GoStr) : Bool := s.all userinfoChar

/-- Model of `parseHost` from net/url (including the `[...]` IP-literal branch). -/
def parseHost (host : GoStr) : Except URLError GoStr :=
  if startsWithStr host (gs "[") then
    match lastIdxOf? host ']' with
    | none => .error .missingBracket
    | some i =>
      let colonPort := host.drop (i + 1)
      if !validOptionalPort colonPort then .error .invalidPort
      else
        match idxOfSub? (gs "%25") (host.take i) with
        | some z =>
          match unescapeMode EncMode.host (host.take z) with
          | .error e => .error e
          | .ok h1 =>
            match unescapeMode EncMode.zone ((host.take i).drop z) with
            | .error e => .error e
            | .ok h2 =>
              match unescapeMode EncMode.host (host.drop i) with
              | .error e => .error e
              | .ok h3 => .ok (h1 ++ h2 ++ h3)
        | none => unescapeMode EncMode.host host
  else
    match lastIdxOf? host ':' with
    | some i =>
      if !validOptionalPort (host.drop i) then .error .invalidPort
      else unescapeMode EncMode.host host
    | none => unescapeMode EncMode.host host

/-- Model of `parseAuthority` from net/url. -/
def parseAuthority (authority : GoStr) : Except URLError (Option Userinfo × GoStr) :=
  match lastIdxOf? authority '@' with
  | none =>
    match parseHost authority with
    | .error e => .error e
    | .ok host => .ok (none, host)
  | some i =>
    match parseHost (authority.drop (i + 1)) with
    | .error e => .error e
    | .ok host =>
      let userinfo := authority.take i
      if !validUserinfo userinfo then .error .invalidUserinfo
      else if !containsChar userinfo ':' then
        match unescapeMode EncMode.userPassword userinfo with
        | .error e => .error e
        | .ok un => .ok (some ⟨un, none⟩, host)
      else
        let c := cutStr userinfo ':'
        match unescapeMode EncMode.userPassword c.1 with
        | .error e => .error e
        | .ok un =>
          match unescapeMode EncMode.userPassword c.2.1 with
          | .error e => .error e
          | .ok pw => .ok (some ⟨un, some pw⟩, host)

/-- Model of `URL.setPath`: returns the decoded `Path` and the `RawPath` hint. -/
def setPathFields (p : GoStr) : Except URLError (GoStr × GoStr) :=
  match unescapeMode EncMode.path p with
  | .error e => .error e
  | .ok path => .ok (path, if escapeMode path EncMode.path = p then [] else p)

/-- Model of `URL.setFragment`: returns the decoded `Fragment` and the
`RawFragment` hint. -/
def setFragmentFields (f : GoStr) : Except URLError (GoStr × GoStr) :=
  match unescapeMode EncMode.fragmentPart f with
  | .error e => .error e
  | .ok frag => .ok (frag, if escapeMode frag EncMode.fragmentPart = f then [] else f)

/-- Model of `strings.TrimSuffix(s, "?")`. -/
def trimSuffixQM (s : GoStr) : GoStr :=
  if endsWithStr s (gs "?") then s.dropLast else s

/-- Tail of `parse` after the scheme and query have been split off:
the opaque/authority/path handling of net/url `parse` with
`viaRequest = false`. -/
def afterSchemeSplit (scheme : GoStr) (forceQuery : Bool) (rawQuery rest : GoStr) :
    Except URLError URL :=
  if !startsWithStr rest (gs "/") && scheme ≠ [] then
    .ok { scheme := scheme, opq := rest, forceQuery := forceQuery, rawQuery := rawQuery }
  else if !startsWithStr rest (gs "/") && containsChar (cutStr rest '/').1 ':' then
    .error .colonSegment
  else if (scheme ≠ [] || !startsWithStr rest (gs "///")) && startsWithStr rest (gs "//") then
    let after := rest.drop 2
    let ar : GoStr × GoStr :=
      match idxOf? after '/' with
      | none => (after, [])
      | some i => (after.take i, after.drop i)
    match parseAuthority ar.1 with
    | .error e => .error e
    | .ok uh =>
      match setPathFields ar.2 with
      | .error e => .error e
      | .ok pr =>
        .ok { scheme := scheme, user := uh.1, host := uh.2, path := pr.1, rawPath := pr.2,
              forceQuery := forceQuery, rawQuery := rawQuery }
  else
    let omitHost := scheme ≠ [] && startsWithStr rest (gs "/")
    match setPathFields rest with
    | .error e => .error e
    | .ok pr =>
      .ok { scheme := scheme, path := pr.1, rawPath := pr.2, omitHost := omitHost,
            forceQuery := forceQuery, rawQuery := rawQuery }

/-- net/url `parse(rawURL, viaRequest=false)` (the fragment has already
been cut off by the caller). -/
def parseInner (rawURL : GoStr) : Except URLError URL :=
  if containsCTL rawURL then .error .ctlByte
  else if rawURL = ['*'] then .ok { path := gs "*" }
  else
    match getScheme rawURL with
    | .error e => .error e
    | .ok sr =>
      let scheme := toLowerStr sr.1
      let rest0 := sr.2
      if endsWithStr rest0 (gs "?") && !containsChar (trimSuffixQM rest0) '?' then
        afterSchemeSplit scheme true [] rest0.dropLast
      else
        let c := cutStr rest0 '?'
        afterSchemeSplit scheme false c.2.1 c.1

/-- Model of `url.Parse`.  A failure carries the string that Go's `&Error`
wrapper would carry alongside the inner error. -/
def urlParse (rawURL : GoStr) : Except (GoStr × URLError) URL :=
  let s := cutStr rawURL '#'
  match parseInner s.1 with
  | .error e => .error (s.1, e)
  | .ok url =>
    if s.2.1 = [] then .ok url
    else
      match setFragmentFields s.2.1 with
      | .error e => .error (rawURL, e)
      | .ok fr => .ok { url with fragment := fr.1, rawFragment := fr.2 }

/-- Model of `splitHostPort` from net/url. -/
def splitHostPort (hostPort : GoStr) : GoStr × GoStr :=
  let hp : GoStr × GoStr :=
    match lastIdxOf? hostPort ':' with
    | some i =>
      if validOptionalPort (hostPort.drop i) then (hostPort.take i, hostPort.drop (i + 1))
      else (hostPort, [])
    | none => (hostPort, [])
  if startsWithStr hp.1 (gs "[") && endsWithStr hp.1 (gs "]") then
    ((hp.1.drop 1).dropLast, hp.2)
  else hp

/-- Model of `URL.Hostname()`. -/
def urlHostname (u : URL) : GoStr := (splitHostPort u.host).1

/-- Model of `URL.Port()`. -/
def urlPort (u : URL) : GoStr := (splitHostPort u.host).2

/-! ### net/url: query parsing (`URL.Query().Get`) -/

/-- Split at every occurrence of `sep` (`strings.Split`). -/
def splitOnChar : GoStr → Char → List GoStr
  | [], _ => [[]]
  | c :: cs, sep =>
    if c = sep then [] :: splitOnChar cs sep
    else
      match splitOnChar cs sep with
      | [] => [[c]]
      | g :: gs0 => (c :: g) :: gs0

/-- One iteration of the `parseQuery` loop body, on the key/value chunk
found before an `&` separator.  Malformed entries are skipped exactly
as Go skips them (`continue`). -/
def queryEntry (chunk : GoStr) : List (GoStr × GoStr) :=
  if containsChar chunk ';' then []
  else if chunk = [] then []
  else
    let kv := cutStr chunk '='
    match unescapeMode EncMode.queryComponent kv.1,
          unescapeMode EncMode.queryComponent kv.2.1 with
    | .ok k, .ok v => [(k, v)]
    | _, _ => []

/-- Model of `parseQuery` from net/url, as the association list of key/value
pairs in query order (`url.Values` with `Get` reading the first value
of a key).  Go's repeated `strings.Cut(query, "&")` visits exactly the
`&`-separated chunks; an empty trailing chunk contributes nothing
either way because empty keys are skipped. -/
def parseQueryLoop (query : GoStr) : List (GoStr × GoStr) :=
  ((splitOnChar query '&').map queryEntry).flatten

/-- Model of `url.Values.Get`: first value for the key, `""` when absent. -/
def valuesGet (m : List (GoStr × GoStr)) (key : GoStr) : GoStr :=
  match m with
  | [] => []
  | kv :: rest => if kv.1 = key then kv.2 else valuesGet rest key

/-! ### net/url: `URL.String()` -/

/-- Model of `validEncoded` from net/url. -/
def validEncodedChar (c : Char) (mode : EncMode) : Bool :=
  if c = '!' || c = '$' || c = '&' || c = '\'' || c = '(' || c = ')' ||
     c = '*' || c = '+' || c = ',' || c = ';' || c = '=' || c = ':' ||
     c = '@' || c = '[' || c = ']' || c = '%' then true
  else !shouldEscape c mode

def validEncoded (s : GoStr) (mode : EncMode) : Bool := s.all (validEncodedChar · mode)

/-- Model of `URL.EscapedPath()`. -/
def escapedPath (u : URL) : GoStr :=
  if u.rawPath ≠ [] && validEncoded u.rawPath EncMode.path &&
     unescapeMode EncMode.path u.rawPath = .ok u.path then
    u.rawPath
  else if u.path = gs "*" then gs "*"
  else escapeMode u.path EncMode.path

/-- Model of `URL.EscapedFragment()`. -/
def escapedFragment (u : URL) : GoStr :=
  if u.rawFragment ≠ [] && validEncoded u.rawFragment EncMode.fragmentPart &&
     unescapeMode EncMode.fragmentPart u.rawFragment = .ok u.fragment then
    u.rawFragment
  else escapeMode u.fragment EncMode.fragmentPart

/-- Model of `Userinfo.String()`. -/
def userinfoString (ui : Userinfo) : GoStr :=
  escapeMode ui.username EncMode.userPassword ++
  (match ui.password with
   | some pw => ':' :: escapeMode pw EncMode.userPassword
   | none => [])

/-- Model of `URL.String()` from net/url (`%v` of a `*url.URL`). -/
def urlString (u : URL) : GoStr :=
  let buf0 : GoStr := if u.scheme ≠ [] then u.scheme ++ [':'] else []
  let core : GoStr :=
    if u.opq ≠ [] then u.opq
    else
      let auth : GoStr :=
        if u.scheme ≠ [] || u.host ≠ [] || u.user.isSome then
          if u.omitHost && u.host = [] && u.user = none then []
          else
            (if u.host ≠ [] || u.path ≠ [] || u.user.isSome then gs "//" else []) ++
            (match u.user with
             | some ui => userinfoString ui ++ ['@']
             | none => []) ++
            (if u.host ≠ [] then escapeMode u.host EncMode.host else [])
        else []
      let p0 := escapedPath u
      let p1 := if p0 ≠ [] && p0.head? ≠ some '/' && u.host ≠ [] then '/' :: p0 else p0
      let p2 :=
        if buf0 = [] && auth = [] && containsChar (cutStr p1 '/').1 ':' then gs "./" ++ p1
        else p1
      auth ++ p2
  buf0 ++ core ++
  (if u.forceQuery || u.rawQuery ≠ [] then '?' :: u.rawQuery else []) ++
  (if u.fragment ≠ [] then '#' :: escapedFragment u else [])

/-! ### The telemetry code under verification: `setRotatinURL` -/

/-- The platform facts `setRotatinURL` consults: `runtime.GOOS ==
"windows"` and `filepath.IsAbs` (an external, platform-specific
predicate, kept abstract). -/
structure Platform where
  isWindows : Bool
  isAbs : GoStr → Bool

/-- The non-Windows platform (where `filepath.IsAbs` is never consulted). -/
def linuxPlat : Platform := ⟨false, fun _ => false⟩

/-- Errors of `setRotatinURL`: a `url.Parse` failure, or one of the
five validation failures (each `fmt.Errorf` carries the parsed `*url.URL`
that `%v` serializes). -/
inductive SetURLError
  | parseErr (raw : GoStr) (e : URLError)
  | userErr (u : URL)
  | fragErr (u : URL)
  | queryErr (u : URL)
  | portErr (u : URL)
  | hostErr (u : URL)
deriving DecidableEq

/-- The loop body of `setRotatinURL` for one path `p`. -/
def rewriteOne (plat : Platform) (rotationSchema : GoStr) (p : GoStr) :
    Except SetURLError GoStr :=
  if plat.isWindows && plat.isAbs p then
    .ok (rotationSchema ++ gs ":?path=" ++ queryEscape p)
  else
    match urlParse p with
    | .error pe => .error (.parseErr pe.1 pe.2)
    | .ok u =>
      if (u.scheme = [] || u.scheme = gs "file") &&
         !(u.path = gs "stdout") && !(u.path = gs "stderr") then
        if u.user.isSome then .error (.userErr u)
        else if u.fragment ≠ [] then .error (.fragErr u)
        else if u.rawQuery ≠ [] then .error (.queryErr u)
        else if urlPort u ≠ [] then .error (.portErr u)
        else if urlHostname u ≠ [] && urlHostname u ≠ gs "localhost" then .error (.hostErr u)
        else .ok (rotationSchema ++ gs ":?path=" ++ queryEscape u.path)
      else .ok p

/-- Model of `setRotatinURL` from telemetry.go: rewrite every path, aborting the
whole list on the first failure. -/
def setRotatinURL (plat : Platform) (paths : List GoStr) (rotationSchema : GoStr) :
    Except SetURLError (List GoStr) :=
  match paths with
  | [] => .ok []
  | p :: rest =>
    match rewriteOne plat rotationSchema p with
    | .error e => .error e
    | .ok r =>
      match setRotatinURL plat rest rotationSchema with
      | .error e => .error e
      | .ok rs => .ok (r :: rs)

/-- The file-URL component a validation error complains about. -/
inductive FileURLComponent
  | userinfoC
  | fragmentC
  | queryC
  | portC
  | hostC
deriving DecidableEq

/-- The fixed text of each `fmt.Errorf` format string in
`setRotatinURL`, up to the `: got %v` tail. -/
def componentPhrase : FileURLComponent → GoStr
  | .userinfoC => gs "user and password not allowed with file URLs"
  | .fragmentC => gs "fragments not allowed with file URLs"
  | .queryC => gs "query parameters not allowed with file URLs"
  | .portC => gs "ports not allowed with file URLs"
  | .hostC => gs "file URLs must leave host empty or use localhost"

/-- The component and parsed URL carried by a validation error. -/
def validationData : SetURLError → Option (FileURLComponent × URL)
  | .parseErr _ _ => none
  | .userErr u => some (.userinfoC, u)
  | .fragErr u => some (.fragmentC, u)
  | .queryErr u => some (.queryC, u)
  | .portErr u => some (.portC, u)
  | .hostErr u => some (.hostC, u)

/-- The full message `fmt.Errorf` renders for a validation error
(`%v` of a `*url.URL` is `URL.String()`). -/
def validationMsg (c : FileURLComponent) (u : URL) : GoStr :=
  componentPhrase c ++ gs ": got " ++ urlString u

/-! ### The registered resolver (`getRotationSinkFactory`) -/

/-- The path extraction the registered sink factory performs on an
incoming destination URL string: zap parses it with `url.Parse` and the
factory reads `u.Query().Get("path")`. -/
def sinkPath (rawDest : GoStr) : Except (GoStr × URLError) GoStr :=
  match urlParse rawDest with
  | .error e => .error e
  | .ok u => .ok (valuesGet (parseQueryLoop u.rawQuery) (gs "path"))

/-! ### configrotate: `Config.NewWriter` -/

/-- Model of `configrotate.Config` (the rotation policy). -/
structure RotateConfig where
  enabled : Bool
  maxMegabytes : Int
  maxDays : Int
  maxBackups : Int
  localTime : Bool
deriving DecidableEq

/-- The `lumberjack.Logger` value constructed by `newLumberjackWriter`
(the external rotation engine is a black box; only the configuration
passed to it is modelled). -/
structure LumberjackLogger where
  filename : GoStr
  maxSize : Int
  maxAge : Int
  maxBackups : Int
  localTime : Bool
deriving DecidableEq

/-- The flags `os.O_WRONLY|os.O_APPEND|os.O_CREATE` passed to
`os.OpenFile`, kept symbolic. -/
structure OpenFlags where
  wronly : Bool
  append : Bool
  create : Bool
deriving DecidableEq

/-- An open file handle returned by the filesystem. -/
structure FileHandle where
  name : GoStr
deriving DecidableEq

/-- The writer `Config.NewWriter` returns: a plain `*os.File`, or a
`*lumberjack.Logger`. -/
inductive RotWriter
  | file (f : FileHandle)
  | lumberjack (l : LumberjackLogger)
deriving DecidableEq

/-- An abstract filesystem: the outcome of `os.OpenFile` for given
name, flags and permission bits (errors carry the message). -/
def FileSystem := GoStr → OpenFlags → Nat → Except GoStr FileHandle

/-- The flag set used by the disabled-rotation branch. -/
def appendCreateFlags : OpenFlags := ⟨true, true, true⟩

/-- The permission bits used by the disabled-rotation branch (0644). -/
def newWriterPerm : Nat := 0o644

/-- Model of `Config.newLumberjackWriter`. -/
def newLumberjackWriter (cfg : RotateConfig) (filename : GoStr) : LumberjackLogger :=
  ⟨filename, cfg.maxMegabytes, cfg.maxDays, cfg.maxBackups, cfg.localTime⟩

/-- Model of `Config.NewWriter`. -/
def NewWriter (fs : FileSystem) (cfg : RotateConfig) (filename : GoStr) :
    Except GoStr RotWriter :=
  if !cfg.enabled then
    match fs filename appendCreateFlags newWriterPerm with
    | .error e => .error e
    | .ok f => .ok (.file f)
  else .ok (.lumberjack (newLumberjackWriter cfg filename))

/-! ### `nopSyncSink`: the sink adapter -/

/-- A close-capable writer over explicit state `σ` (what
`io.WriteCloser` exposes): `write` returns the byte count and an
optional error, `close` an optional error. -/
structure WriteCloser (σ : Type) where
  write : σ → List Nat → σ × Nat × Option GoStr
  close : σ → σ × Option GoStr

/-- A zap sink over explicit state `σ`: write + close + sync. -/
structure ZapSink (σ : Type) where
  write : σ → List Nat → σ × Nat × Option GoStr
  close : σ → σ × Option GoStr
  sync : σ → σ × Option GoStr

/-- Model of `nopSyncSink`: embeds the writer (delegating `Write` and `Close`)
and adds a `Sync` that does nothing and returns `nil`. -/
def nopSyncSink {σ : Type} (w : WriteCloser σ) : ZapSink σ :=
  { write := w.write, close := w.close, sync := fun s => (s, none) }

/-! ### `newLogger`: wiring it together -/

/-- The slice of `LogsConfig` that the rotation wiring reads. -/
structure LogsCfg where
  outputPaths : List GoStr
  errorOutputPaths : List GoStr
  rotation : Option RotateConfig

/-- Errors of `newLogger`'s rotation wiring: a `zap.RegisterSink`
failure or a `setRotatinURL` failure. -/
inductive BuildErr
  | regErr (msg : GoStr)
  | urlErr (e : SetURLError)
deriving DecidableEq

/-- What `newLogger` hands to the zap frontend: the (possibly
rewritten) output path lists, and the sink schema it registered, if
any. -/
structure LoggerBuild where
  outputPaths : List GoStr
  errorOutputPaths : List GoStr
  registeredSchema : Option GoStr
deriving DecidableEq

/-- The rotation wiring of `newLogger`: `uuid` is the generated
`uuid.NewString()` token and `register` the outcome of
`zap.RegisterSink` for a given schema (`none` = success). -/
def newLoggerModel (plat : Platform) (uuid : GoStr) (register : GoStr → Option GoStr)
    (cfg : LogsCfg) : Except BuildErr LoggerBuild :=
  match cfg.rotation with
  | some r =>
    if r.enabled then
      let schema := gs "rotation-" ++ uuid
      match register schema with
      | some msg => .error (.regErr msg)
      | none =>
        match setRotatinURL plat cfg.outputPaths schema with
        | .error e => .error (.urlErr e)
        | .ok ops =>
          match setRotatinURL plat cfg.errorOutputPaths schema with
          | .error e => .error (.urlErr e)
          | .ok eops => .ok ⟨ops, eops, some schema⟩
    else .ok ⟨cfg.outputPaths, cfg.errorOutputPaths, none⟩
  | none => .ok ⟨cfg.outputPaths, cfg.errorOutputPaths, none⟩

/-! ### Bare filesystem paths with no special characters -/

/-- A character of a bare filesystem path "with no special characters":
alphanumeric or one of `/ . - _ ~`. -/
def plainChar (c : Char) : Bool :=
  isAlphaNumChar c || c = '/' || c = '.' || c = '-' || c = '_' || c = '~'

/-- A bare filesystem path with no special characters (and not starting
with `//`, which URL syntax would read as an authority). -/
def plainPathStr (p : GoStr) : Bool :=
  p.all plainChar && !startsWithStr p (gs "//")

/-- A syntactically valid URL scheme: a letter followed by
letters/digits/`+`/`-`/`.` (the tokens `getScheme` accepts). -/
def isSchemeTailChar (c : Char) : Bool :=
  isAlphaChar c || isDigitChar c || c = '+' || c = '-' || c = '.'

def validScheme : GoStr → Bool
  | [] => false
  | c :: cs => isAlphaChar c && cs.all isSchemeTailChar

/-- The characters `queryEscape` can emit on a plain path. -/
def escOK (c : Char) : Bool :=
  isAlphaNumChar c || c = '%' || c = '.' || c = '-' || c = '_' || c = '~'

/-! ### Helper lemmas: characters -/

theorem ne_of_plainChar {c d : Char} (h : plainChar c = true) (hd : plainChar d = false) :
    c ≠ d := by
  intro he
  subst he
  rw [h] at hd
  cases hd

theorem plainChar_cases {c : Char} (h : plainChar c = true) :
    isAlphaNumChar c = true ∨ c = '/' ∨ c = '.' ∨ c = '-' ∨ c = '_' ∨ c = '~' := by
  simp only [plainChar, Bool.or_eq_true, decide_eq_true_eq] at h
  tauto

theorem alphaNum_toNat {c : Char} (h : isAlphaNumChar c = true) :
    (48 ≤ c.toNat ∧ c.toNat ≤ 57) ∨ (65 ≤ c.toNat ∧ c.toNat ≤ 90) ∨
    (97 ≤ c.toNat ∧ c.toNat ≤ 122) := by
  simp only [isAlphaNumChar, isAlphaChar, isLowerAlpha, isUpperAlpha, isDigitChar,
    Bool.or_eq_true, Bool.and_eq_true, decide_eq_true_eq] at h
  omega

theorem isCTLChar_eq_false_of {c : Char} (h1 : 32 ≤ c.toNat) (h2 : c.toNat ≠ 127) :
    isCTLChar c = false := by
  simp only [isCTLChar, Bool.or_eq_false_iff, decide_eq_false_iff_not, Nat.not_lt,
    beq_eq_false_iff_ne, ne_eq]
  exact ⟨h1, h2⟩

theorem alphaNum_not_ctl {c : Char} (h : isAlphaNumChar c = true) : isCTLChar c = false := by
  rcases alphaNum_toNat h with h2 | h2 | h2 <;>
    exact isCTLChar_eq_false_of (by omega) (by omega)

theorem plainChar_not_ctl {c : Char} (h : plainChar c = true) : isCTLChar c = false := by
  rcases plainChar_cases h with h1 | h1 | h1 | h1 | h1 | h1
  · exact alphaNum_not_ctl h1
  all_goals subst h1; decide

theorem schemeTail_of_validScheme {ns : GoStr} (h : validScheme ns = true) :
    ∀ d ∈ ns, isSchemeTailChar d = true := by
  cases ns with
  | nil => cases h
  | cons c cs =>
    simp only [validScheme, Bool.and_eq_true, List.all_eq_true] at h
    intro d hd
    rcases List.mem_cons.mp hd with rfl | hd
    · simp [isSchemeTailChar, h.1]
    · exact h.2 d hd

theorem ne_of_schemeTail {c d : Char} (h : isSchemeTailChar c = true)
    (hd : isSchemeTailChar d = false) : c ≠ d := by
  intro he
  subst he
  rw [h] at hd
  cases hd

theorem schemeTail_cases {c : Char} (h : isSchemeTailChar c = true) :
    isAlphaNumChar c = true ∨ c = '+' ∨ c = '-' ∨ c = '.' := by
  simp only [isSchemeTailChar, Bool.or_eq_true, decide_eq_true_eq] at h
  simp only [isAlphaNumChar, Bool.or_eq_true]
  tauto

theorem schemeTail_not_ctl {c : Char} (h : isSchemeTailChar c = true) :
    isCTLChar c = false := by
  rcases schemeTail_cases h with h1 | h1 | h1 | h1
  · exact alphaNum_not_ctl h1
  all_goals subst h1; decide

theorem ne_of_escOK {c d : Char} (h : escOK c = true) (hd : escOK d = false) : c ≠ d := by
  intro he
  subst he
  rw [h] at hd
  cases hd

theorem escOK_cases {c : Char} (h : escOK c = true) :
    isAlphaNumChar c = true ∨ c = '%' ∨ c = '.' ∨ c = '-' ∨ c = '_' ∨ c = '~' := by
  simp only [escOK, Bool.or_eq_true, decide_eq_true_eq] at h
  tauto

theorem escOK_not_ctl {c : Char} (h : escOK c = true) : isCTLChar c = false := by
  rcases escOK_cases h with h1 | h1 | h1 | h1 | h1 | h1
  · exact alphaNum_not_ctl h1
  all_goals subst h1; decide

/-! ### Helper lemmas: string scanning -/

theorem containsChar_iff_mem {s : GoStr} {d : Char} : containsChar s d = true ↔ d ∈ s := by
  induction s with
  | nil => simp [containsChar]
  | cons c cs ih =>
    by_cases hc : c = d
    · subst hc; simp [containsChar]
    · simp [containsChar, hc, ih, Ne.symm hc]

theorem containsChar_eq_false {s : GoStr} {d : Char} (h : d ∉ s) :
    containsChar s d = false := by
  rw [← Bool.not_eq_true, containsChar_iff_mem]
  exact h

theorem cutStr_not_found {s : GoStr} {sep : Char} (h : sep ∉ s) :
    cutStr s sep = (s, [], false) := by
  induction s with
  | nil => rfl
  | cons c cs ih =>
    have hc : ¬ c = sep := fun he => h (he ▸ List.mem_cons_self c cs)
    have ih' := ih (fun hm => h (List.mem_cons_of_mem c hm))
    simp [cutStr, hc, ih']

theorem cutStr_found {s1 s2 : GoStr} {sep : Char} (h : sep ∉ s1) :
    cutStr (s1 ++ sep :: s2) sep = (s1, s2, true) := by
  induction s1 with
  | nil => simp [cutStr]
  | cons c cs ih =>
    have hc : ¬ c = sep := fun he => h (he ▸ List.mem_cons_self c cs)
    have ih' := ih (fun hm => h (List.mem_cons_of_mem c hm))
    simp [cutStr, hc, ih']

theorem mem_cutStr_fst {s : GoStr} {sep d : Char} (h : d ∈ (cutStr s sep).1) : d ∈ s := by
  induction s with
  | nil => simp [cutStr] at h
  | cons c cs ih =>
    by_cases hc : c = sep
    · simp [cutStr, hc] at h
    · simp only [cutStr, if_neg hc] at h
      rcases List.mem_cons.mp h with rfl | h
      · exact List.mem_cons_self _ _
      · exact List.mem_cons_of_mem _ (ih h)

theorem startsWith_single_mem {s : GoStr} {d : Char} (h : startsWithStr s [d] = true) :
    d ∈ s := by
  cases s with
  | nil => cases h
  | cons c cs =>
    by_cases hc : c = d
    · subst hc; exact List.mem_cons_self _ _
    · simp [startsWithStr, hc] at h

theorem endsWith_single_mem {s : GoStr} {d : Char} (h : endsWithStr s [d] = true) :
    d ∈ s := by
  have := startsWith_single_mem (s := s.reverse) (d := d) (by simpa [endsWithStr] using h)
  simpa using this

theorem startsWith_double_mem {s : GoStr} {d : Char} (h : startsWithStr s [d, d] = true) :
    d ∈ s := by
  cases s with
  | nil => cases h
  | cons c cs =>
    by_cases hc : c = d
    · subst hc; exact List.mem_cons_self _ _
    · simp [startsWithStr, hc] at h

theorem splitOnChar_not_found {s : GoStr} {sep : Char} (h : sep ∉ s) :
    splitOnChar s sep = [s] := by
  induction s with
  | nil => rfl
  | cons c cs ih =>
    have hc : ¬ c = sep := fun he => h (he ▸ List.mem_cons_self c cs)
    have ih' := ih (fun hm => h (List.mem_cons_of_mem c hm))
    simp [splitOnChar, hc, ih']

/-! ### Helper lemmas: escaping of plain paths -/

theorem unescapeMode_cons_path {c : Char} (rest : GoStr) (h1 : ¬ c = '%') (h2 : ¬ c = '+') :
    unescapeMode EncMode.path (c :: rest) =
      match unescapeMode EncMode.path rest with
      | .error e => .error e
      | .ok t => .ok (c :: t) := by
  cases rest with
  | nil => simp [unescapeMode, h1, h2]
  | cons a rest1 => cases rest1 <;> simp [unescapeMode, h1, h2]

theorem unescapeMode_cons_query {c : Char} (rest : GoStr) (h1 : ¬ c = '%') (h2 : ¬ c = '+') :
    unescapeMode EncMode.queryComponent (c :: rest) =
      match unescapeMode EncMode.queryComponent rest with
      | .error e => .error e
      | .ok t => .ok (c :: t) := by
  cases rest with
  | nil => simp [unescapeMode, h1, h2]
  | cons a rest1 => cases rest1 <;> simp [unescapeMode, h1, h2]

theorem escapeChar_plain_path {c : Char} (h : plainChar c = true) :
    escapeChar c EncMode.path = [c] := by
  rcases plainChar_cases h with h1 | h1 | h1 | h1 | h1 | h1
  · simp [escapeChar, shouldEscape, h1]
  all_goals subst h1; decide

theorem escapeMode_cons (c : Char) (cs : GoStr) (mode : EncMode) :
    escapeMode (c :: cs) mode = escapeChar c mode ++ escapeMode cs mode := by
  simp [escapeMode]

theorem escapeMode_plain_path {p : GoStr} (h : ∀ c ∈ p, plainChar c = true) :
    escapeMode p EncMode.path = p := by
  induction p with
  | nil => rfl
  | cons c cs ih =>
    have hc := h c (List.mem_cons_self c cs)
    have ih' := ih (fun d hd => h d (List.mem_cons_of_mem c hd))
    rw [escapeMode_cons, escapeChar_plain_path hc, ih']
    rfl

theorem unescape_plain_path {p : GoStr} (h : ∀ c ∈ p, plainChar c = true) :
    unescapeMode EncMode.path p = .ok p := by
  induction p with
  | nil => rfl
  | cons c cs ih =>
    have hc := h c (List.mem_cons_self c cs)
    have ih' := ih (fun d hd => h d (List.mem_cons_of_mem c hd))
    have hpct : ¬ c = '%' := ne_of_plainChar hc (by decide)
    have hplus : ¬ c = '+' := ne_of_plainChar hc (by decide)
    rw [unescapeMode_cons_path cs hpct hplus, ih']

theorem escapeChar_plain_query_ne {c : Char} (h : plainChar c = true) (hs : ¬ c = '/') :
    escapeChar c EncMode.queryComponent = [c] := by
  rcases plainChar_cases h with h1 | h1 | h1 | h1 | h1 | h1
  · simp [escapeChar, shouldEscape, h1]
  · exact absurd h1 hs
  all_goals subst h1; decide

theorem escapeChar_slash_query :
    escapeChar '/' EncMode.queryComponent = ['%', '2', 'F'] := by decide

theorem queryEscape_mem {p : GoStr} (h : ∀ c ∈ p, plainChar c = true) :
    ∀ d ∈ queryEscape p, escOK d = true := by
  induction p with
  | nil => simp [queryEscape, escapeMode]
  | cons c cs ih =>
    have hc := h c (List.mem_cons_self c cs)
    have ih' := ih (fun d hd => h d (List.mem_cons_of_mem c hd))
    intro d hd
    have hsplit : d ∈ escapeChar c EncMode.queryComponent ∨ d ∈ queryEscape cs := by
      rw [show queryEscape (c :: cs) = escapeChar c EncMode.queryComponent ++ queryEscape cs from
        escapeMode_cons c cs EncMode.queryComponent] at hd
      exact List.mem_append.mp hd
    rcases hsplit with hd1 | hd1
    · by_cases hs : c = '/'
      · subst hs
        rw [escapeChar_slash_query] at hd1
        have hd2 : d = '%' ∨ d = '2' ∨ d = 'F' := by simpa using hd1
        rcases hd2 with rfl | rfl | rfl <;> decide
      · rw [escapeChar_plain_query_ne hc hs] at hd1
        rcases List.mem_singleton.mp hd1 with rfl
        rcases plainChar_cases hc with h1 | h1 | h1 | h1 | h1 | h1
        · simp [escOK, h1]
        · exact absurd h1 hs
        all_goals subst h1; decide
    · exact ih' d hd1

theorem queryUnescape_queryEscape_plain {p : GoStr} (h : ∀ c ∈ p, plainChar c = true) :
    unescapeMode EncMode.queryComponent (queryEscape p) = .ok p := by
  induction p with
  | nil => rfl
  | cons c cs ih =>
    have hc := h c (List.mem_cons_self c cs)
    have ih' := ih (fun d hd => h d (List.mem_cons_of_mem c hd))
    rw [show queryEscape (c :: cs) = escapeChar c EncMode.queryComponent ++ queryEscape cs from
      escapeMode_cons c cs EncMode.queryComponent]
    by_cases hs : c = '/'
    · subst hs
      rw [escapeChar_slash_query]
      have h47 : Char.ofNat (unhexVal '2' * 16 + unhexVal 'F') = '/' := by decide
      simp [unescapeMode, ih', h47, (by decide : isHexChar '2' = true),
        (by decide : isHexChar 'F' = true)]
    · rw [escapeChar_plain_query_ne hc hs]
      have hpct : ¬ c = '%' := ne_of_plainChar hc (by decide)
      have hplus : ¬ c = '+' := ne_of_plainChar hc (by decide)
      show unescapeMode EncMode.queryComponent (c :: queryEscape cs) = _
      rw [unescapeMode_cons_query (queryEscape cs) hpct hplus, ih']

/-! ### Helper lemmas: `getScheme` -/

theorem getSchemeCore_no_colon {s : GoStr} (h : ':' ∉ s) :
    ∀ acc, getSchemeCore acc s = .ok none := by
  induction s with
  | nil => intro acc; rfl
  | cons c cs ih =>
    intro acc
    have hc : ¬ c = ':' := fun he => h (he ▸ List.mem_cons_self c cs)
    have ih' := ih (fun hm => h (List.mem_cons_of_mem c hm))
    by_cases ha : isAlphaChar c = true
    · simp [getSchemeCore, ha, ih']
    · by_cases hd : (isDigitChar c || c = '+' || c = '-' || c = '.') = true
      · simp [getSchemeCore, ha, hd, ih']
      · simp [getSchemeCore, ha, hd, hc]

theorem getScheme_no_colon {s : GoStr} (h : ':' ∉ s) : getScheme s = .ok ([], s) := by
  unfold getScheme
  rw [getSchemeCore_no_colon h []]

theorem getSchemeCore_tail {cs rest : GoStr} (hcs : ∀ c ∈ cs, isSchemeTailChar c = true) :
    ∀ acc, acc ≠ [] → getSchemeCore acc (cs ++ ':' :: rest) = .ok (some (acc ++ cs, rest)) := by
  induction cs with
  | nil =>
    intro acc hacc
    simp [getSchemeCore, hacc, (by decide : isAlphaChar ':' = false),
      (by decide : isDigitChar ':' = false)]
  | cons c cs ih =>
    intro acc hacc
    have hc := hcs c (List.mem_cons_self c cs)
    have ih' := ih (fun d hd => hcs d (List.mem_cons_of_mem c hd))
    by_cases ha : isAlphaChar c = true
    · rw [List.cons_append]
      show getSchemeCore acc (c :: (cs ++ ':' :: rest)) = _
      simp only [getSchemeCore, ha, if_pos]
      rw [ih' (acc ++ [c]) (by simp)]
      simp
    · have hd : (isDigitChar c || c = '+' || c = '-' || c = '.') = true := by
        simp only [isSchemeTailChar, Bool.or_eq_true, decide_eq_true_eq] at hc
        simp only [Bool.or_eq_true, decide_eq_true_eq]
        rcases hc with ((((h1 | h1) | h1) | h1) | h1)
        · exact absurd h1 ha
        all_goals tauto
      rw [List.cons_append]
      show getSchemeCore acc (c :: (cs ++ ':' :: rest)) = _
      simp only [getSchemeCore, ha, hd, if_pos, if_neg, hacc, Bool.false_eq_true, if_false,
        if_true]
      rw [ih' (acc ++ [c]) (by simp)]
      simp

theorem getScheme_validScheme {ns : GoStr} (rest : GoStr) (h : validScheme ns = true) :
    getScheme (ns ++ ':' :: rest) = .ok (ns, rest) := by
  cases ns with
  | nil => cases h
  | cons c0 cs0 =>
    simp only [validScheme, Bool.and_eq_true, List.all_eq_true] at h
    have h1 : getSchemeCore [] ((c0 :: cs0) ++ ':' :: rest) = .ok (some (c0 :: cs0, rest)) := by
      rw [List.cons_append]
      show getSchemeCore [] (c0 :: (cs0 ++ ':' :: rest)) = _
      simp only [getSchemeCore, h.1, if_pos, List.nil_append]
      rw [getSchemeCore_tail h.2 [c0] (by simp)]
      simp
    unfold getScheme
    rw [h1]

/-! ### Parsing a plain bare path -/

theorem setPathFields_plain {p : GoStr} (hall : ∀ c ∈ p, plainChar c = true) :
    setPathFields p = .ok (p, []) := by
  unfold setPathFields
  rw [unescape_plain_path hall]
  simp [escapeMode_plain_path hall]

theorem afterSchemeSplit_plain {p : GoStr} (hall : ∀ c ∈ p, plainChar c = true)
    (hpre : startsWithStr p (gs "//") = false) :
    afterSchemeSplit [] false [] p = .ok { path := p } := by
  have hcolon : ':' ∉ p := fun hm => absurd (hall ':' hm) (by decide)
  have hsub : containsChar (cutStr p '/').1 ':' = false :=
    containsChar_eq_false (fun hm => hcolon (mem_cutStr_fst hm))
  unfold afterSchemeSplit
  simp [hsub, hpre, setPathFields_plain hall]

theorem parseInner_plain {p : GoStr} (hall : ∀ c ∈ p, plainChar c = true)
    (hpre : startsWithStr p (gs "//") = false) :
    parseInner p = .ok { path := p } := by
  have hq : '?' ∉ p := fun hm => absurd (hall '?' hm) (by decide)
  have hcolon : ':' ∉ p := fun hm => absurd (hall ':' hm) (by decide)
  have hctl : containsCTL p = false := by
    simp only [containsCTL, List.any_eq_false]
    intro c hcmem
    simp [plainChar_not_ctl (hall c hcmem)]
  have hstar : ¬ p = ['*'] := fun he =>
    absurd (hall '*' (he ▸ List.mem_singleton.mpr rfl)) (by decide)
  have hsuffix : endsWithStr p (gs "?") = false := by
    rw [Bool.eq_false_iff]
    intro hsuf
    exact hq (endsWith_single_mem hsuf)
  unfold parseInner
  simp only [hctl, Bool.false_eq_true, if_false, hstar, getScheme_no_colon hcolon,
    cutStr_not_found hq, hsuffix, Bool.false_and, toLowerStr, List.map_nil]
  exact afterSchemeSplit_plain hall hpre

theorem urlParse_plain {p : GoStr} (hall : ∀ c ∈ p, plainChar c = true)
    (hpre : startsWithStr p (gs "//") = false) :
    urlParse p = .ok { path := p } := by
  have hhash : '#' ∉ p := fun hm => absurd (hall '#' hm) (by decide)
  unfold urlParse
  simp [cutStr_not_found hhash, parseInner_plain hall hpre]

/-! ### Parsing a rewritten destination URL -/

theorem validScheme_ne_nil {ns : GoStr} (h : validScheme ns = true) : ns ≠ [] := by
  cases ns with
  | nil => cases h
  | cons c cs => simp

theorem mem_rewritten {ns p : GoStr} {d : Char}
    (hd : d ∈ ns ++ ':' :: (gs "?path=" ++ queryEscape p)) :
    d ∈ ns ∨ d = ':' ∨ d ∈ gs "?path=" ∨ d ∈ queryEscape p := by
  rcases List.mem_append.mp hd with h1 | h1
  · exact Or.inl h1
  · rcases List.mem_cons.mp h1 with h2 | h2
    · exact Or.inr (Or.inl h2)
    · rcases List.mem_append.mp h2 with h3 | h3
      · exact Or.inr (Or.inr (Or.inl h3))
      · exact Or.inr (Or.inr (Or.inr h3))

theorem afterSchemeSplit_rewritten {ns q : GoStr} (hns' : toLowerStr ns ≠ []) :
    afterSchemeSplit (toLowerStr ns) false q [] =
      .ok { scheme := toLowerStr ns, rawQuery := q } := by
  unfold afterSchemeSplit
  rw [show gs "/" = ['/'] from rfl]
  simp [startsWithStr, hns']

theorem parseInner_rewritten {ns p : GoStr} (hns : validScheme ns = true)
    (hall : ∀ c ∈ p, plainChar c = true) :
    parseInner (ns ++ ':' :: (gs "?path=" ++ queryEscape p)) =
      .ok { scheme := toLowerStr ns, rawQuery := gs "path=" ++ queryEscape p } := by
  have hEmem := queryEscape_mem hall
  have hnsmem := schemeTail_of_validScheme hns
  have hctl : containsCTL (ns ++ ':' :: (gs "?path=" ++ queryEscape p)) = false := by
    simp only [containsCTL, List.any_eq_false]
    intro c hcmem
    rcases mem_rewritten hcmem with h1 | h1 | h1 | h1
    · simp [schemeTail_not_ctl (hnsmem c h1)]
    · subst h1; decide
    · have hlit : ∀ x ∈ gs "?path=", isCTLChar x = false := by decide
      simp [hlit c h1]
    · simp [escOK_not_ctl (hEmem c h1)]
  have hstar : ¬ ns ++ ':' :: (gs "?path=" ++ queryEscape p) = ['*'] := by
    intro he
    have hlen := congrArg List.length he
    simp [List.length_append] at hlen
    have h0 : 0 < ns.length := List.length_pos.mpr (validScheme_ne_nil hns)
    omega
  have hrest : gs "?path=" ++ queryEscape p = '?' :: (gs "path=" ++ queryEscape p) := by
    rw [show gs "?path=" = '?' :: gs "path=" from rfl, List.cons_append]
  have htail_ne : gs "path=" ++ queryEscape p ≠ [] := by
    rw [show gs "path=" = 'p' :: gs "ath=" from rfl]
    simp
  have hcond : (endsWithStr (gs "?path=" ++ queryEscape p) (gs "?") &&
      !containsChar (trimSuffixQM (gs "?path=" ++ queryEscape p)) '?') = false := by
    by_cases hend : endsWithStr (gs "?path=" ++ queryEscape p) (gs "?") = true
    · have hdrop : trimSuffixQM (gs "?path=" ++ queryEscape p) =
          '?' :: (gs "path=" ++ queryEscape p).dropLast := by
        rw [trimSuffixQM, if_pos hend, hrest]
        exact List.dropLast_cons_of_ne_nil htail_ne
      rw [hend, hdrop]
      simp [containsChar]
    · rw [Bool.eq_false_iff.mpr hend]
      rfl
  have hns' : toLowerStr ns ≠ [] := by
    intro he
    exact validScheme_ne_nil hns (by simpa [toLowerStr] using he)
  unfold parseInner
  simp only [hctl, Bool.false_eq_true, if_false, hstar,
    getScheme_validScheme (gs "?path=" ++ queryEscape p) hns, hcond]
  rw [hrest]
  simp only [cutStr, if_pos]
  exact afterSchemeSplit_rewritten hns'

theorem urlParse_rewritten {ns p : GoStr} (hns : validScheme ns = true)
    (hall : ∀ c ∈ p, plainChar c = true) :
    urlParse (ns ++ gs ":?path=" ++ queryEscape p) =
      .ok { scheme := toLowerStr ns, rawQuery := gs "path=" ++ queryEscape p } := by
  have hR : ns ++ gs ":?path=" ++ queryEscape p =
      ns ++ ':' :: (gs "?path=" ++ queryEscape p) := by
    rw [show gs ":?path=" = ':' :: gs "?path=" from rfl, List.append_assoc, List.cons_append]
  rw [hR]
  have hEmem := queryEscape_mem hall
  have hnsmem := schemeTail_of_validScheme hns
  have hhash : '#' ∉ ns ++ ':' :: (gs "?path=" ++ queryEscape p) := by
    intro hm
    rcases mem_rewritten hm with h1 | h1 | h1 | h1
    · exact absurd (hnsmem '#' h1) (by decide)
    · cases h1
    · revert h1; decide
    · exact absurd (hEmem '#' h1) (by decide)
  unfold urlParse
  simp [cutStr_not_found hhash, parseInner_rewritten hns hall]

theorem sinkPath_rewritten {ns p : GoStr} (hns : validScheme ns = true)
    (hall : ∀ c ∈ p, plainChar c = true) :
    sinkPath (ns ++ gs ":?path=" ++ queryEscape p) = .ok p := by
  have hEmem := queryEscape_mem hall
  unfold sinkPath
  rw [urlParse_rewritten hns hall]
  have hq : gs "path=" ++ queryEscape p = gs "path" ++ '=' :: queryEscape p := by
    rw [show gs "path=" = gs "path" ++ ['='] from rfl, List.append_assoc, List.singleton_append]
  have hamp : '&' ∉ gs "path=" ++ queryEscape p := by
    intro hm
    rcases List.mem_append.mp hm with h1 | h1
    · revert h1; decide
    · exact absurd (hEmem '&' h1) (by decide)
  have hsemi : containsChar (gs "path=" ++ queryEscape p) ';' = false := by
    apply containsChar_eq_false
    intro hm
    rcases List.mem_append.mp hm with h1 | h1
    · revert h1; decide
    · exact absurd (hEmem ';' h1) (by decide)
  have hne : gs "path=" ++ queryEscape p ≠ [] := by
    rw [show gs "path=" = 'p' :: gs "ath=" from rfl]
    simp
  have hcut : cutStr (gs "path=" ++ queryEscape p) '=' = (gs "path", queryEscape p, true) := by
    rw [hq]
    exact cutStr_found (by decide)
  have hkey : unescapeMode EncMode.queryComponent (gs "path") = .ok (gs "path") := by decide
  have hval := queryUnescape_queryEscape_plain hall
  simp [parseQueryLoop, splitOnChar_not_found hamp, queryEntry, hsemi, hne, hcut, hkey, hval,
    valuesGet]

/-! ### Rewriting a plain bare path -/

theorem plainPathStr_split {p : GoStr} (hp : plainPathStr p = true) :
    (∀ c ∈ p, plainChar c = true) ∧ startsWithStr p (gs "//") = false := by
  simpa [plainPathStr, Bool.and_eq_true, List.all_eq_true] using hp

theorem rewriteOne_plain {plat : Platform} {ns p : GoStr} (hplat : plat.isWindows = false)
    (hp : plainPathStr p = true) (h1 : ¬ p = gs "stdout") (h2 : ¬ p = gs "stderr") :
    rewriteOne plat ns p = .ok (ns ++ gs ":?path=" ++ queryEscape p) := by
  obtain ⟨hall, hpre⟩ := plainPathStr_split hp
  have hport : urlPort { path := p } = [] := rfl
  have hhost : urlHostname { path := p } = [] := rfl
  simp [rewriteOne, hplat, urlParse_plain hall hpre, h1, h2, hport, hhost]

/-- The Windows platform shape used in witnesses: `filepath.IsAbs`
recognizes a drive-letter path. -/
def winPlat : Platform := ⟨true, fun q => startsWithStr q (gs "C:\\")⟩

/-! ### The claims -/

/-- Claim C1: for every bare filesystem path `p` (no scheme, not the
keyword stdout or stderr, no special characters), rewriting with
namespace `ns` yields `ns ++ ":?path=" ++ percent-encode(p)`, and the
registered resolver's extraction of the `path` query parameter of that
rewritten URL yields back exactly `p`; in particular the list
`["stderr", "/var/log/app.log"]` with namespace `"rotation-abc"`
rewrites to `["stderr", "rotation-abc:?path=%2Fvar%2Flog%2Fapp.log"]`. -/
theorem claim_c1_roundtrip (plat : Platform) (ns p : GoStr)
    (hplat : plat.isWindows = false) (hns : validScheme ns = true)
    (hp : plainPathStr p = true) (h1 : ¬ p = gs "stdout") (h2 : ¬ p = gs "stderr") :
    rewriteOne plat ns p = .ok (ns ++ gs ":?path=" ++ queryEscape p) ∧
    sinkPath (ns ++ gs ":?path=" ++ queryEscape p) = .ok p ∧
    setRotatinURL linuxPlat [gs "stderr", gs "/var/log/app.log"] (gs "rotation-abc") =
      .ok [gs "stderr", gs "rotation-abc:?path=%2Fvar%2Flog%2Fapp.log"] :=
  ⟨rewriteOne_plain hplat hp h1 h2,
   sinkPath_rewritten hns (plainPathStr_split hp).1,
   by decide⟩

/-- Witness for C1 at `p = "/var/log/app.log"`, `ns = "rotation-abc"`. -/
theorem claim_c1_roundtrip_witness :
    rewriteOne linuxPlat (gs "rotation-abc") (gs "/var/log/app.log") =
      .ok (gs "rotation-abc" ++ gs ":?path=" ++ queryEscape (gs "/var/log/app.log")) ∧
    sinkPath (gs "rotation-abc" ++ gs ":?path=" ++ queryEscape (gs "/var/log/app.log")) =
      .ok (gs "/var/log/app.log") ∧
    setRotatinURL linuxPlat [gs "stderr", gs "/var/log/app.log"] (gs "rotation-abc") =
      .ok [gs "stderr", gs "rotation-abc:?path=%2Fvar%2Flog%2Fapp.log"] :=
  claim_c1_roundtrip linuxPlat (gs "rotation-abc") (gs "/var/log/app.log")
    rfl (by decide) (by decide) (by decide) (by decide)

/-- Claim C2: rewriting a destination list either succeeds on every
element, returning a list of the same length whose i-th entry is the
rewrite of the i-th input (order preserved), or fails for the whole
list with the error of some failing element — no partial result. -/
theorem claim_c2_all_or_nothing (plat : Platform) (ns : GoStr) (paths : List GoStr) :
    (∃ res, setRotatinURL plat paths ns = .ok res ∧ res.length = paths.length ∧
      List.Forall₂ (fun q r => rewriteOne plat ns q = .ok r) paths res) ∨
    (∃ e, setRotatinURL plat paths ns = .error e ∧
      ∃ q ∈ paths, rewriteOne plat ns q = .error e) := by
  induction paths with
  | nil => exact Or.inl ⟨[], rfl, rfl, List.Forall₂.nil⟩
  | cons q qs ih =>
    cases hq : rewriteOne plat ns q with
    | error e =>
      refine Or.inr ⟨e, ?_, q, List.mem_cons_self q qs, hq⟩
      simp [setRotatinURL, hq]
    | ok r =>
      rcases ih with ⟨res, hres, hlen, hfa⟩ | ⟨e, herr, q', hq', hq'err⟩
      · refine Or.inl ⟨r :: res, ?_, by simp [hlen], List.Forall₂.cons hq hfa⟩
        simp [setRotatinURL, hq, hres]
      · refine Or.inr ⟨e, ?_, q', List.mem_cons_of_mem q hq', hq'err⟩
        simp [setRotatinURL, hq, herr]

/-- Claim C3: for every destination parsing to a URL with empty or
"file" scheme whose path is neither "stdout" nor "stderr", rewriting
checks, in this fixed order: user-info absent, fragment absent, raw
query absent, port absent, hostname empty or "localhost" — failing
with the corresponding validation error at the first violated check; in
particular "file://host/var/log/app.log" fails on the hostname check
and "file:///var/log/app.log?x=1" fails on the query check. -/
theorem claim_c3_validation_order (plat : Platform) (ns p : GoStr) (u : URL)
    (hw : (plat.isWindows && plat.isAbs p) = false)
    (hu : urlParse p = .ok u)
    (hcond : ((u.scheme = [] || u.scheme = gs "file") &&
      !(u.path = gs "stdout") && !(u.path = gs "stderr")) = true) :
    (u.user.isSome = true → rewriteOne plat ns p = .error (.userErr u)) ∧
    (u.user = none → u.fragment ≠ [] → rewriteOne plat ns p = .error (.fragErr u)) ∧
    (u.user = none → u.fragment = [] → u.rawQuery ≠ [] →
      rewriteOne plat ns p = .error (.queryErr u)) ∧
    (u.user = none → u.fragment = [] → u.rawQuery = [] → urlPort u ≠ [] →
      rewriteOne plat ns p = .error (.portErr u)) ∧
    (u.user = none → u.fragment = [] → u.rawQuery = [] → urlPort u = [] →
      urlHostname u ≠ [] → urlHostname u ≠ gs "localhost" →
      rewriteOne plat ns p = .error (.hostErr u)) ∧
    rewriteOne linuxPlat (gs "rotation-abc") (gs "file://host/var/log/app.log") =
      .error (.hostErr
        { scheme := gs "file", host := gs "host", path := gs "/var/log/app.log" }) ∧
    rewriteOne linuxPlat (gs "rotation-abc") (gs "file:///var/log/app.log?x=1") =
      .error (.queryErr
        { scheme := gs "file", path := gs "/var/log/app.log", rawQuery := gs "x=1" }) := by
  refine ⟨?_, ?_, ?_, ?_, ?_, by decide, by decide⟩
  · intro h1
    simp [rewriteOne, hw, hu, hcond, h1]
  · intro h1 h2
    simp [rewriteOne, hw, hu, hcond, h1, h2]
  · intro h1 h2 h3
    simp [rewriteOne, hw, hu, hcond, h1, h2, h3]
  · intro h1 h2 h3 h4
    simp [rewriteOne, hw, hu, hcond, h1, h2, h3, h4]
  · intro h1 h2 h3 h4 h5 h6
    simp [rewriteOne, hw, hu, hcond, h1, h2, h3, h4, h5, h6]

/-- Witness for C3 at `p = "file://host/var/log/app.log"` (parsed URL
has host "host"): the hostname conjunct applies. -/
theorem claim_c3_validation_order_witness :
    rewriteOne linuxPlat (gs "rotation-abc") (gs "file://host/var/log/app.log") =
      .error (.hostErr
        { scheme := gs "file", host := gs "host", path := gs "/var/log/app.log" }) :=
  ((claim_c3_validation_order linuxPlat (gs "rotation-abc")
      (gs "file://host/var/log/app.log")
      { scheme := gs "file", host := gs "host", path := gs "/var/log/app.log" }
      (by decide) (by decide) (by decide)).2.2.2.2.1)
    rfl rfl rfl (by decide) (by decide) (by decide)

/-- Claim C4: destinations that are the keyword "stdout" or "stderr",
or whose parsed scheme is neither empty nor "file", are passed through
unchanged (no validation is applied to them). -/
theorem claim_c4_passthrough (plat : Platform) (ns p : GoStr) (u : URL)
    (hw : (plat.isWindows && plat.isAbs p) = false)
    (hu : urlParse p = .ok u)
    (hcond : u.path = gs "stdout" ∨ u.path = gs "stderr" ∨
      (¬ u.scheme = [] ∧ ¬ u.scheme = gs "file")) :
    rewriteOne plat ns p = .ok p := by
  rcases hcond with h | h | ⟨h1, h2⟩
  · simp [rewriteOne, hw, hu, h]
  · simp [rewriteOne, hw, hu, h]
  · simp [rewriteOne, hw, hu, h1, h2]

/-- Witness for C4 at the keyword "stdout" and the non-file scheme
"https://example.com". -/
theorem claim_c4_passthrough_witness :
    rewriteOne linuxPlat (gs "rotation-abc") (gs "stdout") = .ok (gs "stdout") ∧
    rewriteOne linuxPlat (gs "rotation-abc") (gs "https://example.com") =
      .ok (gs "https://example.com") :=
  ⟨claim_c4_passthrough linuxPlat (gs "rotation-abc") (gs "stdout")
      { path := gs "stdout" } (by decide) (by decide) (Or.inl rfl),
   claim_c4_passthrough linuxPlat (gs "rotation-abc") (gs "https://example.com")
      { scheme := gs "https", host := gs "example.com" } (by decide) (by decide)
      (Or.inr (Or.inr ⟨by decide, by decide⟩))⟩

/-- Claim C5: with an enabled policy, `Config.NewWriter` never fails
and returns a rotation writer carrying exactly the given path and the
policy's size/age/backup/local-time values, with no default
substitution; in particular policy {enabled, 1524, 145, 155, true} with
path "test.log" yields exactly those values. -/
theorem claim_c5_enabled_writer (fs : FileSystem) (cfg : RotateConfig) (path : GoStr)
    (h : cfg.enabled = true) :
    NewWriter fs cfg path =
      .ok (.lumberjack ⟨path, cfg.maxMegabytes, cfg.maxDays, cfg.maxBackups, cfg.localTime⟩) ∧
    NewWriter fs ⟨true, 1524, 145, 155, true⟩ (gs "test.log") =
      .ok (.lumberjack ⟨gs "test.log", 1524, 145, 155, true⟩) :=
  ⟨by simp [NewWriter, h, newLumberjackWriter], rfl⟩

/-- Witness for C5 at the policy of concrete scenario 1. -/
theorem claim_c5_enabled_writer_witness :
    NewWriter (fun n _ _ => .ok ⟨n⟩) ⟨true, 1524, 145, 155, true⟩ (gs "test.log") =
      .ok (.lumberjack ⟨gs "test.log", 1524, 145, 155, true⟩) :=
  (claim_c5_enabled_writer (fun n _ _ => .ok ⟨n⟩) ⟨true, 1524, 145, 155, true⟩
    (gs "test.log") rfl).1

/-- Claim C6: with a disabled policy, `Config.NewWriter` opens exactly
the requested path with the append/create/write-only flag set and
permission bits 0644 (owner read-write, group and world read-only:
readable by other local users, not group/world-writable), succeeding
with the filesystem's handle and failing exactly when the filesystem
open fails. -/
theorem claim_c6_disabled_plain_open (fs : FileSystem) (cfg : RotateConfig) (path : GoStr)
    (h : cfg.enabled = false) :
    (∀ fh, fs path appendCreateFlags newWriterPerm = .ok fh →
      NewWriter fs cfg path = .ok (.file fh)) ∧
    (∀ e, fs path appendCreateFlags newWriterPerm = .error e →
      NewWriter fs cfg path = .error e) ∧
    appendCreateFlags.wronly = true ∧ appendCreateFlags.append = true ∧
    appendCreateFlags.create = true ∧ newWriterPerm = 0o644 ∧
    newWriterPerm / 64 % 8 = 6 ∧ newWriterPerm / 8 % 8 = 4 ∧ newWriterPerm % 8 = 4 := by
  refine ⟨?_, ?_, rfl, rfl, rfl, rfl, by decide, by decide, by decide⟩
  · intro fh hfh
    simp [NewWriter, h, hfh]
  · intro e he
    simp [NewWriter, h, he]

/-- Witness for C6 with a filesystem that returns a handle for the
requested name. -/
theorem claim_c6_disabled_plain_open_witness :
    (∀ fh, (fun (n : GoStr) (_ : OpenFlags) (_ : Nat) =>
        (.ok ⟨n⟩ : Except GoStr FileHandle)) (gs "a.log") appendCreateFlags newWriterPerm =
          .ok fh →
      NewWriter (fun n _ _ => .ok ⟨n⟩) ⟨false, 0, 0, 0, false⟩ (gs "a.log") =
        .ok (.file fh)) ∧
    (∀ e, (fun (n : GoStr) (_ : OpenFlags) (_ : Nat) =>
        (.ok ⟨n⟩ : Except GoStr FileHandle)) (gs "a.log") appendCreateFlags newWriterPerm =
          .error e →
      NewWriter (fun n _ _ => .ok ⟨n⟩) ⟨false, 0, 0, 0, false⟩ (gs "a.log") = .error e) ∧
    appendCreateFlags.wronly = true ∧ appendCreateFlags.append = true ∧
    appendCreateFlags.create = true ∧ newWriterPerm = 0o644 ∧
    newWriterPerm / 64 % 8 = 6 ∧ newWriterPerm / 8 % 8 = 4 ∧ newWriterPerm % 8 = 4 :=
  claim_c6_disabled_plain_open (fun n _ _ => .ok ⟨n⟩) ⟨false, 0, 0, 0, false⟩
    (gs "a.log") rfl

/-- Claim C8: on a Windows-convention platform, when the destination is
recognized as absolute, rewriting emits
`namespace ++ ":?path=" ++ percent-encode(p)` directly, for every `p`,
without URL parsing or validation. -/
theorem claim_c8_windows_abs (plat : Platform) (ns p : GoStr)
    (h1 : plat.isWindows = true) (h2 : plat.isAbs p = true) :
    rewriteOne plat ns p = .ok (ns ++ gs ":?path=" ++ queryEscape p) := by
  simp [rewriteOne, h1, h2]

/-- Witness for C8 at a drive-letter path (spaces and back-slashes are
not valid URL path syntax; the Windows branch never parses it). -/
theorem claim_c8_windows_abs_witness :
    rewriteOne winPlat (gs "rotation-abc") (gs "C:\\Program Files\\app.log") =
      .ok (gs "rotation-abc" ++ gs ":?path=" ++ queryEscape (gs "C:\\Program Files\\app.log")) :=
  claim_c8_windows_abs winPlat (gs "rotation-abc") (gs "C:\\Program Files\\app.log")
    rfl (by decide)

/-- Claim C9: the sink adapter delegates write and close unchanged to
the wrapped writer (same state, byte count and error) and its sync
always succeeds while performing no work on the writer (state
unchanged). -/
theorem claim_c9_sink_adapter {σ : Type} (w : WriteCloser σ) (s : σ) (b : List Nat) :
    (nopSyncSink w).write s b = w.write s b ∧
    (nopSyncSink w).close s = w.close s ∧
    (nopSyncSink w).sync s = (s, none) :=
  ⟨rfl, rfl, rfl⟩

/-- Claim C10: with no rotation section, or a rotation section whose
enabled flag is false, logger construction registers no resolver and
passes both path lists to the frontend unchanged — no destination is
parsed, validated or rewritten. -/
theorem claim_c10_no_rotation_frame (plat : Platform) (uuid : GoStr)
    (register : GoStr → Option GoStr) (cfg : LogsCfg)
    (h : cfg.rotation = none ∨ ∃ r, cfg.rotation = some r ∧ r.enabled = false) :
    newLoggerModel plat uuid register cfg =
      .ok ⟨cfg.outputPaths, cfg.errorOutputPaths, none⟩ := by
  rcases h with h | ⟨r, h, hr⟩
  · simp [newLoggerModel, h]
  · simp [newLoggerModel, h, hr]

/-- Witness for C10: an output path that would fail validation under an
enabled policy ("file://host/x") is accepted as-is when rotation is
absent. -/
theorem claim_c10_no_rotation_frame_witness :
    newLoggerModel linuxPlat (gs "u") (fun _ => none)
      ⟨[gs "file://host/x"], [gs "stderr"], none⟩ =
      .ok ⟨[gs "file://host/x"], [gs "stderr"], none⟩ :=
  claim_c10_no_rotation_frame linuxPlat (gs "u") (fun _ => none)
    ⟨[gs "file://host/x"], [gs "stderr"], none⟩ (Or.inl rfl)

/-- Counterexample to claim C7: rewriting `"File://host/a"` fails on
the hostname check, but the message (built by `fmt.Errorf` from the
parsed `*url.URL`, whose scheme has been lower-cased) is
`"file URLs must leave host empty or use localhost: got file://host/a"`,
which does not contain the original input `"File://host/a"`. -/
theorem claim_c7_counterexample :
    setRotatinURL linuxPlat [gs "File://host/a"] (gs "rotation-abc") =
      .error (.hostErr { scheme := gs "file", host := gs "host", path := gs "/a" }) ∧
    validationMsg .hostC { scheme := gs "file", host := gs "host", path := gs "/a" } =
      gs "file URLs must leave host empty or use localhost: got file://host/a" ∧
    containsSub
      (validationMsg .hostC { scheme := gs "file", host := gs "host", path := gs "/a" })
      (gs "File://host/a") = false := by
  refine ⟨by decide, by decide, by decide⟩

/-- Claim C7 as amended: every validation error produced by rewriting a
file-backed destination carries the offending component name (in the
fixed message phrase) together with the *parsed* URL of the original
destination, serialized by `URL.String()` — which can differ from the
input string (for example by scheme lower-casing), rather than being
the input string itself. -/
theorem claim_c7_amended (plat : Platform) (ns p : GoStr) (u : URL) (e : SetURLError)
    (hw : (plat.isWindows && plat.isAbs p) = false)
    (hu : urlParse p = .ok u)
    (he : setRotatinURL plat [p] ns = .error e) :
    ∃ c, validationData e = some (c, u) ∧
      validationMsg c u = componentPhrase c ++ gs ": got " ++ urlString u := by
  have h1 : rewriteOne plat ns p = .error e := by
    cases hrw : rewriteOne plat ns p with
    | error e' =>
      simp only [setRotatinURL, hrw] at he
      injection he with he'
      rw [he']
    | ok r => simp [setRotatinURL, hrw] at he
  rw [rewriteOne] at h1
  rw [hw] at h1
  simp only [Bool.false_eq_true, if_false, hu] at h1
  by_cases h3 : ((u.scheme = [] || u.scheme = gs "file") &&
      !(u.path = gs "stdout") && !(u.path = gs "stderr")) = true
  · rw [if_pos h3] at h1
    by_cases h4 : u.user.isSome = true
    · rw [if_pos h4] at h1
      injection h1 with h1'
      rw [← h1']
      exact ⟨.userinfoC, rfl, rfl⟩
    · rw [if_neg h4] at h1
      by_cases h5 : u.fragment ≠ []
      · rw [if_pos h5] at h1
        injection h1 with h1'
        rw [← h1']
        exact ⟨.fragmentC, rfl, rfl⟩
      · rw [if_neg h5] at h1
        by_cases h6 : u.rawQuery ≠ []
        · rw [if_pos h6] at h1
          injection h1 with h1'
          rw [← h1']
          exact ⟨.queryC, rfl, rfl⟩
        · rw [if_neg h6] at h1
          by_cases h7 : urlPort u ≠ []
          · rw [if_pos h7] at h1
            injection h1 with h1'
            rw [← h1']
            exact ⟨.portC, rfl, rfl⟩
          · rw [if_neg h7] at h1
            by_cases h8 : (urlHostname u ≠ [] && urlHostname u ≠ gs "localhost") = true
            · rw [if_pos h8] at h1
              injection h1 with h1'
              rw [← h1']
              exact ⟨.hostC, rfl, rfl⟩
            · rw [if_neg h8] at h1
              cases h1
  · rw [if_neg h3] at h1
    cases h1

/-- Witness for the amended C7 at `p = "file://host/var/log/app.log"`. -/
theorem claim_c7_amended_witness :
    ∃ c, validationData (.hostErr
      { scheme := gs "file", host := gs "host", path := gs "/var/log/app.log" }) =
        some (c, { scheme := gs "file", host := gs "host", path := gs "/var/log/app.log" }) ∧
      validationMsg c { scheme := gs "file", host := gs "host", path := gs "/var/log/app.log" } =
        componentPhrase c ++ gs ": got " ++
          urlString { scheme := gs "file", host := gs "host", path := gs "/var/log/app.log" } :=
  claim_c7_amended linuxPlat (gs "rotation-abc") (gs "file://host/var/log/app.log")
    { scheme := gs "file", host := gs "host", path := gs "/var/log/app.log" }
    (.hostErr { scheme := gs "file", host := gs "host", path := gs "/var/log/app.log" })
    (by decide) (by decide) (by decide)
